import Mathlib

/-!
Verification of the lifelong graph-learning experiment driver
(`lifelong.py` of wang-chen/LGL).

The driver script is embedded shallowly: tensors become lists of integers,
the model classes (which live in `models/`, outside the inspected source)
are abstracted by explicit function parameters, and the `datasets` module
is modelled from the specification where noted.  Stateful Python code
becomes explicit state passing; fallible code returns `Except String`.
-/

namespace LGL

/-- A graph node sample: feature vector, integer class label, and the
variable-length list of neighbor feature vectors.  Feature entries are
abstracted to integers. -/
structure Sample where
  inputs : List Int
  target : Nat
  neighbor : List (List Int)
deriving DecidableEq, Repr

/-- Compute device, as in the `--device` flag (`cpu` or `cuda:i`). -/
inductive Device where
  | cpu : Device
  | cuda : Nat → Device
deriving DecidableEq, Repr

/-- `tensor.to(device)`: a placement-only move that leaves the value
unchanged but raises when a CUDA device is requested while CUDA is
unavailable.  This is the unguarded transfer of lifelong.py lines 98 and
104-105. -/
def tensorTo (cudaAvailable : Bool) (d : Device) (x : α) : Except String α :=
  match d with
  | .cpu => .ok x
  | .cuda _ => if cudaAvailable then .ok x else .error "CUDA unavailable"

/-- The guarded transfer of `performance` (lifelong.py lines 55-56): the
move happens only under `torch.cuda.is_available()`, so it never raises. -/
def guardedTo (cudaAvailable : Bool) (d : Device) (x : α) : Except String α :=
  if cudaAvailable then tensorTo cudaAvailable d x else .ok x

/-- Which model class was selected (lifelong.py line 97). -/
inductive ModelKind where
  | net : ModelKind
  | lifelongLGL : ModelKind
deriving DecidableEq, Repr

/-- Shallow state of the model object: classifier parameters, the bounded
replay memory, the feature-adjacency statistic, the train/eval mode flag,
and the variant selected at startup. -/
structure LGLNet where
  weights : List Int
  memory : List Sample
  adj : List Int
  training : Bool
  kind : ModelKind
deriving DecidableEq, Repr

/-- `net.eval()`: put the module in evaluation mode. -/
def evalMode (net : LGLNet) : LGLNet := { net with training := false }

/-- Index of the first maximum, as returned by `torch.max(outputs, 1)`. -/
def argmaxGo (i best : Nat) (bv : Int) : List Int → Nat
  | [] => best
  | v :: rest => if bv < v then argmaxGo (i + 1) i v rest else argmaxGo (i + 1) best bv rest

/-- Argmax over one row of logits (first maximal index; 0 on an empty row). -/
def argmaxIdx : List Int → Nat
  | [] => 0
  | v :: rest => argmaxGo 1 0 v rest

/-- Number of correct predictions in one batch:
`predicted.eq(targets.data).sum()` with `predicted = argmax(outputs, 1)`;
the batched forward is row-wise, so each sample is scored by `forward`
applied to it. -/
def correctCount (forward : LGLNet → Sample → List Int) (net : LGLNet)
    (batch : List Sample) : Nat :=
  batch.countP (fun s => argmaxIdx (forward net s) == s.target)

/-- The batch loop of `performance`: guarded device transfer, then
accumulate the correct count and the sample total. -/
def perfLoop (forward : LGLNet → Sample → List Int) (net : LGLNet)
    (cudaAvailable : Bool) (d : Device) :
    List (List Sample) → Nat → Nat → Except String (Nat × Nat)
  | [], correct, total => .ok (correct, total)
  | b :: rest, correct, total =>
    match guardedTo cudaAvailable d b with
    | .error e => .error e
    | .ok b2 => perfLoop forward net cudaAvailable d rest
        (correct + correctCount forward net b2) (total + b2.length)

/-- `performance(loader, net, device)` (lifelong.py lines 50-62): put the
net in eval mode, iterate the loader's batches without gradient tracking,
accumulate correct and total counts, and return `correct/total`
(a ZeroDivisionError when the loader holds no sample).  The net, whose
mode flag was mutated in place by `net.eval()`, is returned explicitly. -/
def performance (forward : LGLNet → Sample → List Int) (cudaAvailable : Bool)
    (d : Device) (loader : List (List Sample)) (net : LGLNet) :
    Except String (Rat × LGLNet) :=
  let net2 := evalMode net
  match perfLoop forward net2 cudaAvailable d loader 0 0 with
  | .error e => .error e
  | .ok (correct, total) =>
    if total = 0 then .error "ZeroDivisionError"
    else .ok ((correct : Rat) / (total : Rat), net2)

/-- A named dataset as the `datasets` module exposes it: the recognized
names, the class count, the feature length, and the train/test node sets. -/
structure Dataset where
  known : List String
  numClass : Nat
  featLen : Nat
  trainSamples : List Sample
  testSamples : List Sample

/-- The `data_type` argument of `continuum`. -/
inductive DataType where
  | train : DataType
  | test : DataType
  | incremental : Nat → DataType

/-- The task-`i` slice of the training set: the nodes whose label equals
the task index (spec section 4.2). -/
def taskData (ds : Dataset) (i : Nat) : List Sample :=
  ds.trainSamples.filter (fun s => s.target == i)

/-- Modelled from the spec: `continuum` lives in `datasets/`, which is not
under src/.  Spec section 4.2: it loads and partitions the named dataset
(`data_type` in train, test, incremental; a `task_type` integer selects
the node subset whose label equals that task index) and fails with
UnknownDataset when the name is not recognized. -/
def continuum (ds : Dataset) (name : String) : DataType → Except String (List Sample) :=
  fun dt =>
    if name ∈ ds.known then
      .ok (match dt with
        | .train => ds.trainSamples
        | .test => ds.testSamples
        | .incremental i => taskData ds i)
    else .error "UnknownDataset"

/-- Fuel-indexed chunking; the fuel is the list length, so the recursion
is structural and kernel-reducible. -/
def toBatchesGo (bs : Nat) : Nat → List α → List (List α)
  | _, [] => []
  | 0, _ :: _ => []
  | fuel + 1, x :: xs => (x :: xs).take bs :: toBatchesGo bs fuel ((x :: xs).drop bs)

/-- `Data.DataLoader(dataset, batch_size, ...)` batching: consecutive
chunks of `bs` samples, the last chunk possibly smaller. -/
def toBatches (bs : Nat) (xs : List α) : List (List α) :=
  toBatchesGo bs xs.length xs

/-- Modelled from the spec: the replay-memory insertion step of `observe`
(the model classes live in `models/`, not under src/).  Spec section 4.3
step 1: insert the incoming sample into the replay memory, evicting when
at capacity, so at most `memory-size` samples are kept.  The spec leaves
the precise eviction policy open; a newest-first ring buffer is used. -/
def memoryInsert (cap : Nat) (mem : List Sample) (s : Sample) : List Sample :=
  (s :: mem).take cap

/-- Modelled from the spec: `observe(inputs, targets, neighbor)` (spec
section 4.3): insert the batch into the bounded replay memory, run
`iteration` optimizer steps on composite mini-batches drawn from the new
batch and the replay memory (`step` abstracts one optimizer step), and
update the feature-adjacency statistic (`adjStep` abstracts the smoothing
by `adj-momentum`).  It mutates the memory, the weights and the adjacency
statistic, and nothing else. -/
def observe (cap iteration : Nat)
    (step : List Int → List Sample → List Sample → List Int)
    (adjStep : List Int → List Sample → List Int)
    (net : LGLNet) (batch : List Sample) : LGLNet :=
  let mem := batch.foldl (memoryInsert cap) net.memory
  { net with
    memory := mem
    weights := (fun w => step w batch mem)^[iteration] net.weights
    adj := adjStep net.adj batch }

/-- `str.lower()`: char-wise lowercasing over the string's characters. -/
def lowerStr (s : String) : String := String.mk (s.data.map Char.toLower)

/-- lifelong.py line 97: `Model = Net if args.dataset.lower() in
['cora', 'citeseer', 'pubmed'] else LifelongLGL`. -/
def selectModel (name : String) : ModelKind :=
  if lowerStr name ∈ ["cora", "citeseer", "pubmed"] then .net else .lifelongLGL

/-- The command-line arguments the driver control flow depends on.  The
float hyperparameters (`lr`, `momentum`, `adj-momentum`) are consumed only
inside the external model classes and are absorbed into the abstract
`step`/`adjStep` functions. -/
structure Args where
  device : Device
  dataset : String
  load : Option String
  save : Option String
  batchSize : Nat
  iteration : Nat
  memorySize : Nat

/-- What one run of the driver emits: either the single printed line of
the `--load` branch, carrying the train and test accuracies, or the
metrics table of the incremental run, one row
(task index, sample count, train accuracy, test accuracy) per task. -/
inductive Outcome where
  | loaded : Rat → Rat → Outcome
  | trained : List (Nat × Nat × Rat × Rat) → Outcome
deriving DecidableEq, Repr

/-- The inner batch loop of the task loop (lifelong.py lines 103-106):
unguarded device transfer of each batch, then `net.observe(...)`. -/
def observeLoop (cudaAvailable : Bool) (d : Device)
    (obs : LGLNet → List Sample → LGLNet) :
    List (List Sample) → LGLNet → Except String LGLNet
  | [], net => .ok net
  | b :: rest, net =>
    match tensorTo cudaAvailable d b with
    | .error e => .error e
    | .ok b2 => observeLoop cudaAvailable d obs rest (obs net b2)

/-- One iteration of the task loop (lifelong.py lines 101-109): build the
incremental data and its shuffled loader, observe every batch, evaluate
the just-seen incremental loader and the fixed test loader, and produce
the metrics row `[i, len(incremental_data), train_acc, test_acc]`. -/
def runTask (cudaAvailable : Bool) (args : Args) (ds : Dataset)
    (shuffle : Nat → List Sample → List Sample)
    (forward : LGLNet → Sample → List Int)
    (obs : LGLNet → List Sample → LGLNet)
    (testLoader : List (List Sample)) (i : Nat) (net : LGLNet) :
    Except String (LGLNet × (Nat × Nat × Rat × Rat)) := do
  let incData ← continuum ds args.dataset (.incremental i)
  let incLoader := toBatches args.batchSize (shuffle i incData)
  let net2 ← observeLoop cudaAvailable args.device obs incLoader net
  let (trainAcc, _) ← performance forward cudaAvailable args.device incLoader net2
  let (testAcc, net3) ← performance forward cudaAvailable args.device testLoader net2
  return (net3, (i, incData.length, trainAcc, testAcc))

/-- The task loop `for i in range(test_data.num_class)` (lifelong.py line
100), unrolled over the remaining task count and threading the net. -/
def runTasksFrom (cudaAvailable : Bool) (args : Args) (ds : Dataset)
    (shuffle : Nat → List Sample → List Sample)
    (forward : LGLNet → Sample → List Int)
    (obs : LGLNet → List Sample → LGLNet)
    (testLoader : List (List Sample)) :
    Nat → Nat → LGLNet →
    Except String (LGLNet × List (Nat × Nat × Rat × Rat))
  | _, 0, net => .ok (net, [])
  | i, n + 1, net => do
    let (net2, row) ← runTask cudaAvailable args ds shuffle forward obs testLoader i net
    let (net3, rows) ← runTasksFrom cudaAvailable args ds shuffle forward obs
      testLoader (i + 1) n net2
    return (net3, row :: rows)

/-- The `__main__` block of lifelong.py (lines 86-113), as explicit state
passing.  Build the test loader once; when `--load` is given, evaluate the
loaded net on the train and the test loader, emit the printed accuracies
and stop; otherwise select the model variant from the dataset name once,
place the fresh net on the device, run the task loop over all
`num_class` tasks and emit the metrics table.  `shuffle` is the seeded
DataLoader shuffle; `forward`, `obs`, `initNet` and `loadedNet` abstract
the external model classes and the checkpoint. -/
def lglMain (cudaAvailable : Bool) (args : Args) (ds : Dataset)
    (shuffle : Nat → List Sample → List Sample)
    (forward : LGLNet → Sample → List Int)
    (obs : LGLNet → List Sample → LGLNet)
    (initNet : ModelKind → LGLNet) (loadedNet : LGLNet) :
    Except String Outcome := do
  let testData ← continuum ds args.dataset .test
  let testLoader := toBatches args.batchSize testData
  match args.load with
  | some _ => do
    let trainData ← continuum ds args.dataset .train
    let trainLoader := toBatches args.batchSize trainData
    let net ← tensorTo cudaAvailable args.device loadedNet
    let (trainAcc, _) ← performance forward cudaAvailable args.device trainLoader net
    let (testAcc, _) ← performance forward cudaAvailable args.device testLoader net
    return Outcome.loaded trainAcc testAcc
  | none => do
    let net ← tensorTo cudaAvailable args.device (initNet (selectModel args.dataset))
    let (_, rows) ← runTasksFrom cudaAvailable args ds shuffle forward obs
      testLoader 0 ds.numClass net
    return Outcome.trained rows

/-- The requested placement succeeds: cpu always, a cuda device only when
CUDA is available. -/
def deviceOk (cudaAvailable : Bool) (d : Device) : Prop :=
  d = Device.cpu ∨ cudaAvailable = true

/-- Total number of samples a loader yields. -/
def totalSamples (loader : List (List Sample)) : Nat :=
  (loader.map List.length).sum

theorem guardedTo_ok (c : Bool) (d : Device) (x : α) : guardedTo c d x = .ok x := by
  cases c <;> cases d <;> simp [guardedTo, tensorTo]

theorem tensorTo_ok (c : Bool) (d : Device) (hd : deviceOk c d) (x : α) :
    tensorTo c d x = .ok x := by
  rcases hd with h | h
  · subst h; rfl
  · subst h; cases d <;> simp [tensorTo]

theorem perfLoop_eq (f : LGLNet → Sample → List Int) (net : LGLNet) (c : Bool)
    (d : Device) (loader : List (List Sample)) (correct total : Nat) :
    perfLoop f net c d loader correct total =
      .ok (correct + (loader.map (correctCount f net)).sum,
           total + (loader.map List.length).sum) := by
  induction loader generalizing correct total with
  | nil => simp [perfLoop]
  | cons b rest ih =>
    simp only [perfLoop, guardedTo_ok, ih, List.map_cons, List.sum_cons]
    congr 2 <;> omega

theorem performance_eq (f : LGLNet → Sample → List Int) (c : Bool) (d : Device)
    (loader : List (List Sample)) (net : LGLNet) :
    performance f c d loader net =
      if totalSamples loader = 0 then .error "ZeroDivisionError"
      else .ok (((loader.map (correctCount f (evalMode net))).sum : Rat) /
        ((totalSamples loader : Nat) : Rat), evalMode net) := by
  simp [performance, perfLoop_eq, totalSamples]

theorem toBatchesGo_flatten (bs : Nat) (hbs : 0 < bs) :
    ∀ (fuel : Nat) (xs : List α), xs.length ≤ fuel →
      (toBatchesGo bs fuel xs).flatten = xs := by
  intro fuel
  induction fuel with
  | zero =>
    intro xs h
    have : xs = [] := List.length_eq_zero.mp (Nat.le_zero.mp h)
    subst this; rfl
  | succ n ih =>
    intro xs h
    match xs with
    | [] => rfl
    | x :: t =>
      have hlen : ((x :: t).drop bs).length ≤ n := by
        simp only [List.length_drop, List.length_cons]
        simp only [List.length_cons] at h
        omega
      simp only [toBatchesGo, List.flatten_cons, ih _ hlen]
      exact List.take_append_drop bs (x :: t)

theorem toBatches_flatten (bs : Nat) (hbs : 0 < bs) (xs : List α) :
    (toBatches bs xs).flatten = xs :=
  toBatchesGo_flatten bs hbs xs.length xs le_rfl

theorem totalSamples_toBatches (bs : Nat) (hbs : 0 < bs) (xs : List Sample) :
    totalSamples (toBatches bs xs) = xs.length := by
  have := congrArg List.length (toBatches_flatten bs hbs xs)
  rwa [List.length_flatten] at this

theorem totalSamples_flatten (loader : List (List Sample)) :
    totalSamples loader = loader.flatten.length := by
  rw [List.length_flatten]; rfl

theorem correct_sum_flatten (f : LGLNet → Sample → List Int) (net : LGLNet)
    (loader : List (List Sample)) :
    (loader.map (correctCount f net)).sum =
      loader.flatten.countP (fun s => argmaxIdx (f net s) == s.target) := by
  rw [List.countP_flatten]
  rfl

theorem sum_map_add (l : List α) (f g : α → Nat) :
    (l.map (fun x => f x + g x)).sum = (l.map f).sum + (l.map g).sum := by
  induction l with
  | nil => rfl
  | cons x t ih => simp only [List.map_cons, List.sum_cons, ih]; omega

theorem indicator_sum_range_zero (a : Nat) :
    ∀ n, n ≤ a → ((List.range n).map (fun i => if a == i then 1 else 0)).sum = 0 := by
  intro n
  induction n with
  | zero => intro; rfl
  | succ n ih =>
    intro h
    rw [List.range_succ, List.map_append, List.sum_append, ih (by omega)]
    have hne : a ≠ n := by omega
    simp [hne]

theorem indicator_sum_range_one (n a : Nat) (h : a < n) :
    ((List.range n).map (fun i => if a == i then 1 else 0)).sum = 1 := by
  induction n with
  | zero => omega
  | succ n ih =>
    rw [List.range_succ, List.map_append, List.sum_append]
    rcases Nat.lt_or_ge a n with h2 | h2
    · have hne : a ≠ n := by omega
      rw [ih h2]
      simp [hne]
    · have heq : a = n := by omega
      subst heq
      rw [indicator_sum_range_zero a a le_rfl]
      simp

theorem filter_target_length_sum (n : Nat) (xs : List Sample)
    (h : ∀ s ∈ xs, s.target < n) :
    ((List.range n).map (fun i => (xs.filter (fun s => s.target == i)).length)).sum
      = xs.length := by
  induction xs with
  | nil => simp
  | cons s t ih =>
    have hs : s.target < n := h s (by simp)
    have ht : ∀ x ∈ t, x.target < n := fun x hx => h x (by simp [hx])
    have key : ((List.range n).map
        (fun i => ((s :: t).filter (fun x => x.target == i)).length)) =
        ((List.range n).map (fun i =>
          (if s.target == i then 1 else 0) + (t.filter (fun x => x.target == i)).length)) := by
      apply List.map_congr_left
      intro i _
      by_cases hc : s.target = i <;> simp [List.filter_cons, hc] <;> omega
    rw [key, sum_map_add, indicator_sum_range_one n s.target hs, ih ht]
    simp only [List.length_cons]
    omega

theorem taskData_length_sum (ds : Dataset)
    (h : ∀ s ∈ ds.trainSamples, s.target < ds.numClass) :
    ((List.range ds.numClass).map (fun i => (taskData ds i).length)).sum
      = ds.trainSamples.length :=
  filter_target_length_sum ds.numClass ds.trainSamples h

theorem observeLoop_ok (c : Bool) (d : Device) (hd : deviceOk c d)
    (obs : LGLNet → List Sample → LGLNet) :
    ∀ (loader : List (List Sample)) (net : LGLNet),
      observeLoop c d obs loader net = .ok (loader.foldl obs net) := by
  intro loader
  induction loader with
  | nil => intro net; rfl
  | cons b rest ih =>
    intro net
    simp only [observeLoop, tensorTo_ok c d hd, ih, List.foldl_cons]

theorem bindOk (a : α) (f : α → Except String β) : (Except.ok a >>= f) = f a := rfl

theorem pureOk (a : α) : (pure a : Except String α) = Except.ok a := rfl

theorem runTask_ok (c : Bool) (args : Args) (ds : Dataset)
    (shuffle : Nat → List Sample → List Sample)
    (forward : LGLNet → Sample → List Int) (obs : LGLNet → List Sample → LGLNet)
    (testLoader : List (List Sample)) (i : Nat) (net : LGLNet)
    (hname : args.dataset ∈ ds.known)
    (hdev : deviceOk c args.device)
    (hbs : 0 < args.batchSize)
    (hshuf : (shuffle i (taskData ds i)).length = (taskData ds i).length)
    (htask : taskData ds i ≠ [])
    (htest : totalSamples testLoader ≠ 0) :
    ∃ (net2 : LGLNet) (a b : Rat),
      runTask c args ds shuffle forward obs testLoader i net =
        .ok (net2, (i, (taskData ds i).length, a, b)) := by
  have hinc : totalSamples (toBatches args.batchSize (shuffle i (taskData ds i)))
      = (taskData ds i).length := by
    rw [totalSamples_toBatches args.batchSize hbs, hshuf]
  have hlen : (taskData ds i).length ≠ 0 := by
    intro h0
    exact htask (List.length_eq_zero.mp h0)
  simp only [runTask, continuum, if_pos hname,
    observeLoop_ok c args.device hdev obs, performance_eq, hinc,
    if_neg hlen, if_neg htest, bindOk, pureOk]
  exact ⟨_, _, _, rfl⟩

theorem runTasksFrom_ok (c : Bool) (args : Args) (ds : Dataset)
    (shuffle : Nat → List Sample → List Sample)
    (forward : LGLNet → Sample → List Int) (obs : LGLNet → List Sample → LGLNet)
    (testLoader : List (List Sample))
    (hname : args.dataset ∈ ds.known)
    (hdev : deviceOk c args.device)
    (hbs : 0 < args.batchSize)
    (htest : totalSamples testLoader ≠ 0) :
    ∀ (n i : Nat) (net : LGLNet),
      (∀ j, j < n → taskData ds (i + j) ≠ []) →
      (∀ j, j < n →
        (shuffle (i + j) (taskData ds (i + j))).length = (taskData ds (i + j)).length) →
      ∃ (netF : LGLNet) (rows : List (Nat × Nat × Rat × Rat)),
        runTasksFrom c args ds shuffle forward obs testLoader i n net = .ok (netF, rows) ∧
        rows.map (fun r => (r.1, r.2.1)) =
          (List.range n).map (fun j => (i + j, (taskData ds (i + j)).length)) := by
  intro n
  induction n with
  | zero => intro i net _ _; exact ⟨net, [], rfl, rfl⟩
  | succ n ih =>
    intro i net htask hshuf
    obtain ⟨net2, a, b, h1⟩ := runTask_ok c args ds shuffle forward obs testLoader i net
      hname hdev hbs (by simpa using hshuf 0 (by omega))
      (by simpa using htask 0 (by omega)) htest
    obtain ⟨netF, rows, h2, h3⟩ := ih (i + 1) net2
      (fun j hj => by
        have := htask (j + 1) (by omega)
        rwa [show i + (j + 1) = i + 1 + j by omega] at this)
      (fun j hj => by
        have := hshuf (j + 1) (by omega)
        rwa [show i + (j + 1) = i + 1 + j by omega] at this)
    refine ⟨netF, (i, (taskData ds i).length, a, b) :: rows, ?_, ?_⟩
    · simp only [runTasksFrom, h1, h2, bindOk, pureOk]
    · rw [List.map_cons, h3, List.range_succ_eq_map, List.map_cons, List.map_map]
      refine congrArg₂ List.cons (by simp) ?_
      apply List.map_congr_left
      intro j _
      have hj : i + Nat.succ j = i + 1 + j := by omega
      simp [Function.comp, hj]

/-! Concrete instances used by the witnesses. -/

/-- A class-0 node with one feature and no neighbor. -/
def s0 : Sample := ⟨[1], 0, []⟩

/-- A class-1 node with one feature and one neighbor. -/
def s1 : Sample := ⟨[0], 1, [[1]]⟩

/-- A fresh model object in training mode. -/
def zeroNet : LGLNet := ⟨[], [], [], true, ModelKind.net⟩

/-- A two-class dataset recognizing only the name cora. -/
def demoDs : Dataset := ⟨["cora"], 2, 1, [s0, s1], [s0]⟩

/-- Default-flavored arguments: cpu device, cora, no load/save. -/
def demoArgs : Args := ⟨Device.cpu, "cora", none, none, 10, 5, 500⟩

/-- A forward function scoring class 0 everywhere. -/
def demoForward : LGLNet → Sample → List Int := fun _ _ => [0]

/-- An observe stub that leaves the net unchanged. -/
def demoObs : LGLNet → List Sample → LGLNet := fun n _ => n

/-- A constructor stamping the selected variant on a fresh net. -/
def demoInit : ModelKind → LGLNet := fun k => { zeroNet with kind := k }

/-! The claims. -/

/-- C3 (amended: restricted to loaders yielding at least one sample, since
`performance` divides by the sample count with no zero guard).  The
evaluator iterates all batches, counts a sample as correct exactly when
the argmax of the model's output equals the sample's label, visits every
sample of the loader exactly once — the denominator is the loader's total
sample count and the numerator scores each sample of the flattened loader
once — and returns accuracy = correct/total, a value in [0, 1]. -/
theorem performance_contract (f : LGLNet → Sample → List Int) (c : Bool)
    (d : Device) (loader : List (List Sample)) (net : LGLNet)
    (h : 0 < totalSamples loader) :
    ∃ (acc : Rat) (net2 : LGLNet),
      performance f c d loader net = .ok (acc, net2) ∧
      acc = ((loader.flatten.countP
          (fun s => argmaxIdx (f (evalMode net) s) == s.target) : Nat) : Rat) /
        ((loader.flatten.length : Nat) : Rat) ∧
      0 ≤ acc ∧ acc ≤ 1 := by
  have h0 : totalSamples loader ≠ 0 := by omega
  refine ⟨_, _, by rw [performance_eq, if_neg h0], ?_, ?_, ?_⟩
  · rw [correct_sum_flatten, totalSamples_flatten]
  · have hc : (0 : Rat) ≤ ((loader.map (correctCount f (evalMode net))).sum : Rat) := by
      exact_mod_cast Nat.zero_le _
    have ht : (0 : Rat) ≤ ((totalSamples loader : Nat) : Rat) := by
      exact_mod_cast Nat.zero_le _
    exact div_nonneg hc ht
  · have hle : (loader.map (correctCount f (evalMode net))).sum ≤ totalSamples loader := by
      rw [correct_sum_flatten, totalSamples_flatten]
      exact List.countP_le_length _
    have htpos : (0 : Rat) < ((totalSamples loader : Nat) : Rat) := by
      exact_mod_cast h
    rw [div_le_one htpos]
    exact_mod_cast hle

/-- C3 counterexample: on a loader yielding no samples, `performance`
raises a ZeroDivisionError instead of returning a value in [0, 1], so the
claim fails for the empty loader. -/
theorem performance_empty_loader_cex :
    performance demoForward false Device.cpu [] zeroNet =
      .error "ZeroDivisionError" := rfl

/-- C3 witness: on a one-sample loader the evaluator returns the promised
accuracy value. -/
theorem performance_contract_witness :
    ∃ (acc : Rat) (net2 : LGLNet),
      performance demoForward false Device.cpu [[s0]] zeroNet = .ok (acc, net2) ∧
      acc = ((([s0] : List Sample).countP
          (fun s => argmaxIdx (demoForward (evalMode zeroNet) s) == s.target) : Nat) : Rat) /
        ((([s0] : List Sample).length : Nat) : Rat) ∧
      0 ≤ acc ∧ acc ≤ 1 := by
  have := performance_contract demoForward false Device.cpu [[s0]] zeroNet (by decide)
  simpa using this

/-- C10: `performance` computes `correct/total` with no guard against a
zero total: a loader with no samples makes it fail with ZeroDivisionError
rather than return a value, while under the precondition that the loader
yields at least one sample the division is safe and a value is returned. -/
theorem performance_division_guard (f : LGLNet → Sample → List Int) (c : Bool)
    (d : Device) (loader : List (List Sample)) (net : LGLNet) :
    (totalSamples loader = 0 →
      performance f c d loader net = .error "ZeroDivisionError") ∧
    (0 < totalSamples loader →
      ∃ (acc : Rat) (net2 : LGLNet),
        performance f c d loader net = .ok (acc, net2)) := by
  rw [performance_eq]
  constructor
  · intro h
    rw [if_pos h]
  · intro h
    rw [if_neg (by omega)]
    exact ⟨_, _, rfl⟩

/-- C10 witness: the empty loader triggers the ZeroDivisionError branch. -/
theorem performance_division_guard_witness :
    performance demoForward true (Device.cuda 0) [] zeroNet =
      .error "ZeroDivisionError" :=
  (performance_division_guard demoForward true (Device.cuda 0) [] zeroNet).1 rfl

/-- C6: the evaluator mutates no model state other than the mode flag that
`net.eval()` clears: whenever `performance` returns, the returned net has
the parameters, replay memory, adjacency statistic and variant it was
given, and training-mode-only behavior was disabled for the whole pass
(the net ran and is left with `training = false`). -/
theorem performance_pure (f : LGLNet → Sample → List Int) (c : Bool)
    (d : Device) (loader : List (List Sample)) (net : LGLNet)
    (acc : Rat) (net2 : LGLNet)
    (h : performance f c d loader net = .ok (acc, net2)) :
    net2.weights = net.weights ∧ net2.memory = net.memory ∧
    net2.adj = net.adj ∧ net2.kind = net.kind ∧ net2.training = false := by
  rw [performance_eq] at h
  by_cases h0 : totalSamples loader = 0
  · rw [if_pos h0] at h
    cases h
  · rw [if_neg h0] at h
    simp only [Except.ok.injEq, Prod.mk.injEq] at h
    obtain ⟨-, h2⟩ := h
    subst h2
    simp [evalMode]

/-- C6 witness: a concrete evaluation returning accuracy 1 leaves the
model state intact apart from the cleared mode flag. -/
theorem performance_pure_witness :
    ({ zeroNet with training := false } : LGLNet).weights = zeroNet.weights ∧
    ({ zeroNet with training := false } : LGLNet).memory = zeroNet.memory ∧
    ({ zeroNet with training := false } : LGLNet).adj = zeroNet.adj ∧
    ({ zeroNet with training := false } : LGLNet).kind = zeroNet.kind ∧
    ({ zeroNet with training := false } : LGLNet).training = false :=
  performance_pure demoForward false Device.cpu [[s0]] zeroNet
    (((1 : Nat) : Rat) / ((1 : Nat) : Rat)) { zeroNet with training := false } rfl

/-- C7: the evaluator is idempotent: two `performance` calls on the same
model over loaders holding the same samples (the same loader, even
reshuffled between the calls) return identical results, and the mode-flag
mutation left by the first call does not change the second call's result. -/
theorem performance_idempotent (f : LGLNet → Sample → List Int) (c : Bool)
    (d : Device) (l1 l2 : List (List Sample)) (net : LGLNet)
    (h : l1.flatten.Perm l2.flatten) :
    performance f c d l1 net = performance f c d l2 net ∧
    performance f c d l1 (evalMode net) = performance f c d l1 net := by
  have hlen : totalSamples l1 = totalSamples l2 := by
    rw [totalSamples_flatten, totalSamples_flatten, h.length_eq]
  have hcount : (l1.map (correctCount f (evalMode net))).sum
      = (l2.map (correctCount f (evalMode net))).sum := by
    rw [correct_sum_flatten, correct_sum_flatten, h.countP_eq]
  constructor
  · rw [performance_eq, performance_eq, hlen, hcount]
  · rw [performance_eq, performance_eq]
    rfl

/-- C7 witness: the same two samples, rebatched and reordered, yield the
same evaluation result, also after the first call's mode-flag mutation. -/
theorem performance_idempotent_witness :
    performance demoForward false Device.cpu [[s0, s1]] zeroNet =
      performance demoForward false Device.cpu [[s1], [s0]] zeroNet ∧
    performance demoForward false Device.cpu [[s0, s1]] (evalMode zeroNet) =
      performance demoForward false Device.cpu [[s0, s1]] zeroNet :=
  performance_idempotent demoForward false Device.cpu [[s0, s1]] [[s1], [s0]] zeroNet
    (by simpa using List.Perm.swap s1 s0 [])

/-- C8: the model variant is selected exactly once at startup from the
dataset name — the baseline Net exactly when the lowercased name is cora,
citeseer or pubmed, and LifelongLGL for every other name — and is never
switched afterwards: the variant stamped on the net is preserved by
`observe` and by every returning `performance` call, both variants being
driven through the same observe/forward interface. -/
theorem selectModel_spec :
    (∀ name : String,
      (selectModel name = ModelKind.net ↔
        lowerStr name ∈ ["cora", "citeseer", "pubmed"]) ∧
      (selectModel name = ModelKind.lifelongLGL ↔
        lowerStr name ∉ ["cora", "citeseer", "pubmed"])) ∧
    (∀ (cap iteration : Nat) (step : List Int → List Sample → List Sample → List Int)
      (adjStep : List Int → List Sample → List Int) (net : LGLNet) (batch : List Sample),
      (observe cap iteration step adjStep net batch).kind = net.kind) ∧
    (∀ (f : LGLNet → Sample → List Int) (c : Bool) (d : Device)
      (loader : List (List Sample)) (net : LGLNet) (acc : Rat) (net2 : LGLNet),
      performance f c d loader net = .ok (acc, net2) → net2.kind = net.kind) := by
  refine ⟨?_, fun _ _ _ _ _ _ => rfl, ?_⟩
  · intro name
    by_cases hm : lowerStr name ∈ ["cora", "citeseer", "pubmed"] <;>
      simp [selectModel, hm]
  · intro f c d loader net acc net2 h
    rw [performance_eq] at h
    by_cases h0 : totalSamples loader = 0
    · rw [if_pos h0] at h
      cases h
    · rw [if_neg h0] at h
      simp only [Except.ok.injEq, Prod.mk.injEq] at h
      obtain ⟨-, h2⟩ := h
      subst h2
      rfl

/-- C8 witness: cora (case-insensitively) selects the baseline Net, an
unknown name selects LifelongLGL, and an observe call keeps the variant. -/
theorem selectModel_spec_witness :
    selectModel "Cora" = ModelKind.net ∧
    selectModel "reddit" = ModelKind.lifelongLGL ∧
    (observe 2 1 (fun w _ _ => w) (fun a _ => a) zeroNet [s0, s1]).kind = zeroNet.kind :=
  ⟨(selectModel_spec.1 "Cora").1.mpr (by decide),
   (selectModel_spec.1 "reddit").2.mpr (by decide),
   selectModel_spec.2.1 2 1 (fun w _ _ => w) (fun a _ => a) zeroNet [s0, s1]⟩

theorem memoryFold_le (cap : Nat) :
    ∀ (batch : List Sample) (mem : List Sample), mem.length ≤ cap →
      (batch.foldl (memoryInsert cap) mem).length ≤ cap := by
  intro batch
  induction batch with
  | nil => intro mem h; exact h
  | cons s t ih =>
    intro mem _
    refine ih _ ?_
    simp only [memoryInsert, List.length_take]
    omega

/-- C4: for every task sequence — any sequence of observed batches — and
every configuration, the replay memory holds at most `memory-size` samples
after every `observe` call (spec-modelled `observe`, the model classes not
being under src/). -/
theorem replay_memory_bounded (cap iteration : Nat)
    (step : List Int → List Sample → List Sample → List Int)
    (adjStep : List Int → List Sample → List Int)
    (batches : List (List Sample)) (net : LGLNet)
    (h : net.memory.length ≤ cap) :
    ((batches.foldl (observe cap iteration step adjStep) net).memory).length ≤ cap := by
  induction batches generalizing net with
  | nil => exact h
  | cons b rest ih =>
    refine ih _ ?_
    exact memoryFold_le cap b net.memory h

/-- C4 witness: three samples observed into a capacity-2 memory leave at
most 2 stored samples. -/
theorem replay_memory_bounded_witness :
    ((([[s0, s1, s0], [s1]] : List (List Sample)).foldl
      (observe 2 5 (fun w _ _ => w) (fun a _ => a)) zeroNet).memory).length ≤ 2 :=
  replay_memory_bounded 2 5 (fun w _ _ => w) (fun a _ => a)
    [[s0, s1, s0], [s1]] zeroNet (by decide)

theorem bindError (e : String) (f : α → Except String β) :
    (Except.error e >>= f) = Except.error e := rfl

/-- C9: an unrecognized dataset name makes the very first dataset
construction (the test split, built before the task loop) fail with
UnknownDataset: the whole run aborts with that error for every choice of
the remaining inputs, so no observe call happens, no metrics row is
produced, and there is no retry or partial recovery. -/
theorem unknown_dataset_fatal (c : Bool) (args : Args) (ds : Dataset)
    (shuffle : Nat → List Sample → List Sample)
    (forward : LGLNet → Sample → List Int) (obs : LGLNet → List Sample → LGLNet)
    (initNet : ModelKind → LGLNet) (loadedNet : LGLNet)
    (h : args.dataset ∉ ds.known) :
    lglMain c args ds shuffle forward obs initNet loadedNet =
      .error "UnknownDataset" := by
  simp only [lglMain, continuum, if_neg h, bindError]

/-- C9 witness: dataset name foo against a loader knowing only cora
aborts the run with UnknownDataset. -/
theorem unknown_dataset_fatal_witness :
    lglMain false ⟨Device.cpu, "foo", none, none, 10, 5, 500⟩ demoDs
      (fun _ xs => xs) demoForward demoObs demoInit zeroNet =
      .error "UnknownDataset" :=
  unknown_dataset_fatal false ⟨Device.cpu, "foo", none, none, 10, 5, 500⟩ demoDs
    (fun _ xs => xs) demoForward demoObs demoInit zeroNet (by decide)

/-- C5 (amended: only the evaluation path falls back silently — its device
transfer is guarded by the availability check, so `performance` behaves
identically, CPU-equivalently, for every device/availability combination —
while the training loop's per-batch transfer is unguarded and raises as
soon as a batch is moved to an absent CUDA device, aborting the run
instead of falling back). -/
theorem device_fallback (f : LGLNet → Sample → List Int)
    (l : List (List Sample)) (net : LGLNet) :
    (∀ (c1 c2 : Bool) (d1 d2 : Device),
      performance f c1 d1 l net = performance f c2 d2 l net) ∧
    (∀ (k : Nat) (obs : LGLNet → List Sample → LGLNet)
      (b : List Sample) (rest : List (List Sample)) (net2 : LGLNet),
      observeLoop false (Device.cuda k) obs (b :: rest) net2 =
        .error "CUDA unavailable") := by
  constructor
  · intro c1 c2 d1 d2
    rw [performance_eq, performance_eq]
  · intro k obs b rest net2
    rfl

/-- C5 counterexample: with CUDA absent and device cuda:0 requested, the
training loop's unguarded batch transfer raises instead of executing the
observe pass on CPU, refuting the silent fallback on that path. -/
theorem device_fallback_cex :
    observeLoop false (Device.cuda 0) demoObs [[s0]] zeroNet =
      .error "CUDA unavailable" := rfl

/-- C2: with `--load` supplied the run loads the checkpoint, evaluates it
on the train loader and on the test loader, emits the single printed line
carrying those two accuracies, and stops: the outcome never depends on the
observe function (no observe call is made) and is never a metrics table
(no incremental training happens). -/
theorem load_branch_exits (c : Bool) (args : Args) (ds : Dataset) (p : String)
    (shuffle : Nat → List Sample → List Sample)
    (forward : LGLNet → Sample → List Int) (obs : LGLNet → List Sample → LGLNet)
    (initNet : ModelKind → LGLNet) (loadedNet : LGLNet)
    (hload : args.load = some p)
    (hname : args.dataset ∈ ds.known)
    (hdev : deviceOk c args.device)
    (hbs : 0 < args.batchSize)
    (htrain : ds.trainSamples ≠ [])
    (htest : ds.testSamples ≠ []) :
    (∃ (a b : Rat) (n1 n2 : LGLNet),
      lglMain c args ds shuffle forward obs initNet loadedNet = .ok (.loaded a b) ∧
      performance forward c args.device
        (toBatches args.batchSize ds.trainSamples) loadedNet = .ok (a, n1) ∧
      performance forward c args.device
        (toBatches args.batchSize ds.testSamples) loadedNet = .ok (b, n2)) ∧
    (∀ obs2 : LGLNet → List Sample → LGLNet,
      lglMain c args ds shuffle forward obs2 initNet loadedNet
        = lglMain c args ds shuffle forward obs initNet loadedNet) ∧
    (∀ rows, lglMain c args ds shuffle forward obs initNet loadedNet
      ≠ .ok (.trained rows)) := by
  have htrain0 : totalSamples (toBatches args.batchSize ds.trainSamples) ≠ 0 := by
    rw [totalSamples_toBatches args.batchSize hbs]
    intro h0
    exact htrain (List.length_eq_zero.mp h0)
  have htest0 : totalSamples (toBatches args.batchSize ds.testSamples) ≠ 0 := by
    rw [totalSamples_toBatches args.batchSize hbs]
    intro h0
    exact htest (List.length_eq_zero.mp h0)
  have hmain : lglMain c args ds shuffle forward obs initNet loadedNet =
      .ok (.loaded
        (((toBatches args.batchSize ds.trainSamples).map
            (correctCount forward (evalMode loadedNet))).sum /
          ((totalSamples (toBatches args.batchSize ds.trainSamples) : Nat) : Rat))
        (((toBatches args.batchSize ds.testSamples).map
            (correctCount forward (evalMode loadedNet))).sum /
          ((totalSamples (toBatches args.batchSize ds.testSamples) : Nat) : Rat))) := by
    simp only [lglMain, continuum, if_pos hname, hload, bindOk,
      tensorTo_ok c args.device hdev, performance_eq,
      if_neg htrain0, if_neg htest0, pureOk]
  refine ⟨⟨_, _, evalMode loadedNet, evalMode loadedNet, hmain, ?_, ?_⟩, ?_, ?_⟩
  · rw [performance_eq, if_neg htrain0]
  · rw [performance_eq, if_neg htest0]
  · intro obs2
    simp only [lglMain, hload]
  · intro rows
    rw [hmain]
    intro hcontra
    simp at hcontra

/-- C2 witness: with `--load m.pt` on the demo dataset the run emits the
loaded-accuracies line, is observe-independent, and yields no metrics. -/
theorem load_branch_exits_witness :
    ∃ (a b : Rat) (n1 n2 : LGLNet),
      lglMain false ⟨Device.cpu, "cora", some "m.pt", none, 10, 5, 500⟩ demoDs
        (fun _ xs => xs) demoForward demoObs demoInit zeroNet = .ok (.loaded a b) ∧
      performance demoForward false Device.cpu
        (toBatches 10 demoDs.trainSamples) zeroNet = .ok (a, n1) ∧
      performance demoForward false Device.cpu
        (toBatches 10 demoDs.testSamples) zeroNet = .ok (b, n2) :=
  (load_branch_exits false ⟨Device.cpu, "cora", some "m.pt", none, 10, 5, 500⟩ demoDs
    "m.pt" (fun _ xs => xs) demoForward demoObs demoInit zeroNet
    rfl (by decide) (Or.inl rfl) (by decide) (by decide) (by decide)).1

/-- C1: without `--load` the driver visits task indices 0..num_class-1 in
increasing order exactly once each, observing each batch of the task's
incremental loader exactly once in loader order (the observe pass is
exactly the fold of `observe` over the loader's batches) against the test
loader built once before the loop, and appends exactly one metrics row per
task, row i carrying task index i and the number of samples of task i;
hence exactly `num_class` rows are emitted and their sample counts sum to
the training-set size. -/
theorem driver_task_loop (c : Bool) (args : Args) (ds : Dataset)
    (shuffle : Nat → List Sample → List Sample)
    (forward : LGLNet → Sample → List Int) (obs : LGLNet → List Sample → LGLNet)
    (initNet : ModelKind → LGLNet) (loadedNet : LGLNet)
    (hload : args.load = none)
    (hname : args.dataset ∈ ds.known)
    (hdev : deviceOk c args.device)
    (hbs : 0 < args.batchSize)
    (hshuf : ∀ (i : Nat) (xs : List Sample), (shuffle i xs).Perm xs)
    (hlabel : ∀ s ∈ ds.trainSamples, s.target < ds.numClass)
    (htask : ∀ i ∈ List.range ds.numClass, taskData ds i ≠ [])
    (htest : ds.testSamples ≠ []) :
    ∃ rows,
      lglMain c args ds shuffle forward obs initNet loadedNet = .ok (.trained rows) ∧
      rows.length = ds.numClass ∧
      rows.map (fun r => (r.1, r.2.1)) =
        (List.range ds.numClass).map (fun i => (i, (taskData ds i).length)) ∧
      (rows.map (fun r => r.2.1)).sum = ds.trainSamples.length ∧
      (∀ (loader : List (List Sample)) (net : LGLNet),
        observeLoop c args.device obs loader net = .ok (loader.foldl obs net)) := by
  have htest0 : totalSamples (toBatches args.batchSize ds.testSamples) ≠ 0 := by
    rw [totalSamples_toBatches args.batchSize hbs]
    intro h0
    exact htest (List.length_eq_zero.mp h0)
  obtain ⟨netF, rows, h2, h3⟩ :=
    runTasksFrom_ok c args ds shuffle forward obs
      (toBatches args.batchSize ds.testSamples) hname hdev hbs htest0
      ds.numClass 0 (initNet (selectModel args.dataset))
      (fun j hj => by simpa using htask j (List.mem_range.mpr hj))
      (fun j hj => (hshuf (0 + j) (taskData ds (0 + j))).length_eq)
  have hmaps : rows.map (fun r => (r.1, r.2.1)) =
      (List.range ds.numClass).map (fun i => (i, (taskData ds i).length)) := by
    rw [h3]
    apply List.map_congr_left
    intro j _
    simp
  refine ⟨rows, ?_, ?_, hmaps, ?_, observeLoop_ok c args.device hdev obs⟩
  · simp only [lglMain, continuum, if_pos hname, hload, bindOk,
      tensorTo_ok c args.device hdev, h2, pureOk]
  · have := congrArg List.length hmaps
    simpa using this
  · have hsnd := congrArg (List.map Prod.snd) hmaps
    simp only [List.map_map] at hsnd
    have hl : rows.map (fun r => r.2.1) =
        (List.range ds.numClass).map (fun i => (taskData ds i).length) := by
      simpa [Function.comp] using hsnd
    rw [hl, taskData_length_sum ds hlabel]

/-- C1 witness: on the two-class demo dataset the driver emits exactly two
rows, rows (0, 1) and (1, 1), sample counts summing to the train size. -/
theorem driver_task_loop_witness :
    ∃ rows,
      lglMain false demoArgs demoDs (fun _ xs => xs) demoForward demoObs
        demoInit zeroNet = .ok (.trained rows) ∧
      rows.length = demoDs.numClass ∧
      rows.map (fun r => (r.1, r.2.1)) =
        (List.range demoDs.numClass).map (fun i => (i, (taskData demoDs i).length)) ∧
      (rows.map (fun r => r.2.1)).sum = demoDs.trainSamples.length ∧
      (∀ (loader : List (List Sample)) (net : LGLNet),
        observeLoop false demoArgs.device demoObs loader net =
          .ok (loader.foldl demoObs net)) :=
  driver_task_loop false demoArgs demoDs (fun _ xs => xs) demoForward demoObs
    demoInit zeroNet rfl (by decide) (Or.inl rfl) (by decide)
    (fun _ xs => List.Perm.refl xs) (by decide) (by decide) (by decide)

end LGL
